import Mathlib

/-!
Shallow embedding of the RAG index-lifecycle and chat-pipeline code of the
`ai_chatbot` repository (src/vector_db_management.py, src/rag_app_3/vector_store.py,
src/rag_app_3/rag_chat_app_ce.py, src/rag_app_3/chat_app_fre.py,
src/rag_app_3/chat_app_nle.py).

Modelling conventions:
- A langchain `Document` is a record of its `page_content` and its
  `metadata["source"]` entry (the only metadata field the code reads).
- The embedding model (`HuggingFaceEmbeddings`) is an opaque deterministic
  function from text to an integer vector; floating-point vectors are modelled
  over `Int`, which is faithful for every property proved here (none depends on
  real arithmetic).
- The FAISS vector store is modelled by its contents: the list of
  (embedding vector, document) pairs inserted by `FAISS.from_documents`.
  `save_local` / `load_local` are modelled as writing/reading that data under a
  name inside the index-root directory, per FAISS's documented contract that
  `load_local` restores the serialized index; the directory is a list of
  (name, index) pairs.
- Interactive widgets (selectboxes, text inputs) are modelled as input
  parameters holding the value the user supplied; `st.stop()` / raised
  exceptions are modelled with `Except`.
-/

namespace RagBot

/-- A langchain `Document`: its text and its `metadata["source"]` identifier
(the origin file path or S3 object key). -/
structure Document where
  page_content : String
  source : String
deriving DecidableEq, Repr

/-- The embedding model: a deterministic map from text to a fixed vector,
modelling `HuggingFaceEmbeddings.embed_query` / `embed_documents`. -/
def Embedder : Type := String → List Int

/-- The FAISS vector store built by `FAISS.from_documents`: the list of
(embedding, document) pairs it holds. -/
structure FAISSIndex where
  entries : List (List Int × Document)
deriving DecidableEq, Repr

/-- Model of `FAISS.from_documents(docs, embedding_model)`: embed every document's text
and store the (vector, document) pairs. -/
def FAISS_from_documents (emb : Embedder) (docs : List Document) : FAISSIndex :=
  ⟨docs.map (fun d => (emb d.page_content, d))⟩

/-- The on-disk index root directory: one serialized index per name
(`vector_store/` in the app, `~/.ragbot/vector_dbs` in the management script). -/
def Disk : Type := List (String × FAISSIndex)

/-- Remove the directory for `name` from the index root (`shutil.rmtree`). -/
def eraseKey (name : String) (disk : Disk) : Disk :=
  disk.filter (fun p => !(p.1 == name))

/-- Model of `index.save_local(str(root / name))`: (over)write the serialized index
under `name` in the index root. -/
def save_local (disk : Disk) (name : String) (idx : FAISSIndex) : Disk :=
  (name, idx) :: eraseKey name disk

/-- Model of `VectorStore.load_vector_store` (src/rag_app_3/vector_store.py lines 32-39):
if a vector DB is selected, `FAISS.load_local(root / selected, embeddings=...)`
deserializes the index stored under that name; otherwise returns `None`.
Loading a missing directory is `none` here (FAISS raises in that case; no claim
depends on the distinction). -/
def load_vector_store (disk : Disk) (_emb : Embedder) (selected_vector : Option String) :
    Option FAISSIndex :=
  match selected_vector with
  | some name => disk.lookup name
  | none => none

/-- Squared L2 distance between two vectors, the FAISS default metric. -/
def sqDist (u v : List Int) : Int :=
  ((u.zip v).map (fun p => (p.1 - p.2) ^ 2)).sum

/-- Model of `index.similarity_search_with_score(query, k)`: embed the query with the
index's embedder, order all stored documents by ascending distance to the
query vector, and return the first `k` with their scores. -/
def similarity_search_with_score (idx : FAISSIndex) (emb : Embedder) (q : String) (k : Nat) :
    List (Document × Int) :=
  ((idx.entries.map (fun e => (e.2, sqDist (emb q) e.1))).insertionSort
    (fun a b => a.2 ≤ b.2)).take k

/-- The retriever handle produced by `vector_store.as_retriever(...)`. -/
structure Retriever where
  index : FAISSIndex
  search_type : String
  k : Nat
deriving DecidableEq, Repr

/-- Model of `VectorStore.get_retriever` (src/rag_app_3/vector_store.py lines 109-112):
`if self.vector_store: return self.vector_store.as_retriever(search_type="similarity",
search_kwargs={"k": 3})` and otherwise `return None`. -/
def get_retriever (vector_store : Option FAISSIndex) : Option Retriever :=
  match vector_store with
  | some vs => some ⟨vs, "similarity", 3⟩
  | none => none

/-- The two kinds of conversational chain `setup_chain` can build. -/
inductive Chain
  | ragChain (r : Retriever)
  | simpleChain
deriving DecidableEq, Repr

/-- Model of `RAGChatAppCE.setup_chain` (src/rag_app_3/rag_chat_app_ce.py lines 98-138):
builds the retrieval chain when the Use-Vector-DB flag is set and a retriever
exists, and otherwise the plain prompt-plus-LLM chain. Neither branch calls any
`st.*` display function; the second component is the (always empty) list of
user-visible messages this function emits. -/
def setup_chain_ce (use_vector_db : Bool) (retriever : Option Retriever) :
    Chain × List String :=
  match use_vector_db, retriever with
  | true, some r => (.ragChain r, [])
  | true, none => (.simpleChain, [])
  | false, _ => (.simpleChain, [])

/-! ## The semantic chunker (`langchain_experimental.text_splitter.SemanticChunker`)

`SemanticChunker.split_text` splits the document text into sentences with a
regex (whitespace after `.?!` is consumed), computes the embedding distance
between each pair of consecutive sentences, collects the indices whose distance
exceeds the derived threshold, and joins each run of sentences between two
breakpoints with a single space. We model a document at the sentence level
(`SentDocument.sentences` is the regex-split sentence list; the document's
whitespace-normalized text is those sentences joined by single spaces). The
breakpoint threshold (`"gradient"` in vector_store.py, `"standard_deviation"`
in vector_db_management.py) enters only through the `thr` parameter; every
property proved below holds for any threshold and any distance function. -/

/-- A raw document as seen by the chunker: its sentence list (the result of the
sentence-split regex) and its `metadata["source"]`. -/
structure SentDocument where
  sentences : List String
  source : String
deriving DecidableEq, Repr

/-- Python's string join: `sep.join(l)`. -/
def pyJoin (sep : String) : List String → String
  | [] => ""
  | [s] => s
  | s :: rest => s ++ sep ++ pyJoin sep rest

/-- Distances between consecutive sentence embeddings
(`_calculate_sentence_distances`): entry `i` is the distance between sentence
`i` and sentence `i+1`. -/
def sentenceDistances (embDist : String → String → Int) (sentences : List String) :
    List Int :=
  List.zipWith embDist sentences sentences.tail

/-- Model of the comprehension `[i for i, x in enumerate(distances) if x > threshold]`. -/
def indicesAboveThresh (distances : List Int) (thr : Int) : List Nat :=
  (List.range distances.length).filter (fun i => decide (thr < distances.getD i 0))

/-- The grouping loop of `SemanticChunker.split_text`: for each breakpoint
index `i`, emit the sentence group `sentences[start_index : i + 1]` and
continue from `i + 1`; after the loop, if `start_index < len(sentences)`, emit
the remaining tail as a final group. -/
def chunkGroups (sentences : List String) : List Nat → Nat → List (List String)
  | [], start =>
      if start < sentences.length then [sentences.drop start] else []
  | i :: rest, start =>
      (sentences.drop start).take (i + 1 - start) :: chunkGroups sentences rest (i + 1)

/-- Model of `SemanticChunker.split_text`: a single-sentence text is returned whole;
otherwise the sentence groups delimited by the breakpoint indices are each
joined with a single space. -/
def split_text (embDist : String → String → Int) (thr : Int)
    (sentences : List String) : List String :=
  if sentences.length = 1 then sentences
  else
    (chunkGroups sentences
      (indicesAboveThresh (sentenceDistances embDist sentences) thr) 0).map (pyJoin " ")

/-- Model of `SemanticChunker.split_documents`: split each document's text and copy the
parent document's metadata onto every resulting chunk. -/
def split_documents (embDist : String → String → Int) (thr : Int)
    (docs : List SentDocument) : List Document :=
  docs.flatMap (fun d =>
    (split_text embDist thr d.sentences).map
      (fun t => { page_content := t, source := d.source }))

/-! ### Lemmas about the chunker -/

theorem pyJoin_cons (sep : String) (s : String) (l : List String) (h : l ≠ []) :
    pyJoin sep (s :: l) = s ++ sep ++ pyJoin sep l := by
  cases l with
  | nil => exact absurd rfl h
  | cons a as => rfl

theorem pyJoin_append (sep : String) (xs ys : List String)
    (hx : xs ≠ []) (hy : ys ≠ []) :
    pyJoin sep (xs ++ ys) = pyJoin sep xs ++ sep ++ pyJoin sep ys := by
  induction xs with
  | nil => exact absurd rfl hx
  | cons a as ih =>
    cases as with
    | nil =>
      cases ys with
      | nil => exact absurd rfl hy
      | cons b bs => simp [pyJoin_cons, pyJoin]
    | cons a2 as2 =>
      have h1 : (a2 :: as2 : List String) ≠ [] := by simp
      have h2 : (a2 :: as2 : List String) ++ ys ≠ [] := by simp
      calc pyJoin sep ((a :: a2 :: as2) ++ ys)
          = a ++ sep ++ pyJoin sep ((a2 :: as2) ++ ys) := pyJoin_cons sep a _ h2
        _ = a ++ sep ++ (pyJoin sep (a2 :: as2) ++ sep ++ pyJoin sep ys) := by
              rw [ih h1]
        _ = pyJoin sep (a :: a2 :: as2) ++ sep ++ pyJoin sep ys := by
              rw [pyJoin_cons sep a _ h1]
              simp [String.append_assoc]

theorem flatten_ne_nil_of_members (gs : List (List String)) (hne : gs ≠ [])
    (h : ∀ g ∈ gs, g ≠ []) : gs.flatten ≠ [] := by
  cases gs with
  | nil => exact absurd rfl hne
  | cons g rest =>
    have hg : g ≠ [] := h g (by simp)
    simp only [List.flatten_cons]
    intro hab
    rcases List.append_eq_nil.mp hab with ⟨h1, _⟩
    exact hg h1

theorem pyJoin_map_join (sep : String) (gs : List (List String))
    (h : ∀ g ∈ gs, g ≠ []) :
    pyJoin sep (gs.map (pyJoin sep)) = pyJoin sep gs.flatten := by
  induction gs with
  | nil => rfl
  | cons g rest ih =>
    by_cases hr : rest = []
    · subst hr
      simp [pyJoin]
    · have hmembers : ∀ g ∈ rest, g ≠ [] := fun x hx => h x (by simp [hx])
      have hg : g ≠ [] := h g (by simp)
      have hmap : rest.map (pyJoin sep) ≠ [] := by
        simpa using hr
      have hjoin : rest.flatten ≠ [] := flatten_ne_nil_of_members rest hr hmembers
      calc pyJoin sep ((g :: rest).map (pyJoin sep))
          = pyJoin sep g ++ sep ++ pyJoin sep (rest.map (pyJoin sep)) :=
            pyJoin_cons sep _ _ hmap
        _ = pyJoin sep g ++ sep ++ pyJoin sep rest.flatten := by rw [ih hmembers]
        _ = pyJoin sep (g ++ rest.flatten) := (pyJoin_append sep g rest.flatten hg hjoin).symm
        _ = pyJoin sep (g :: rest).flatten := by simp

theorem chunkGroups_join (sentences : List String) :
    ∀ (breaks : List Nat) (start : Nat), breaks.Pairwise (· ≤ ·) →
      (∀ i ∈ breaks, start ≤ i + 1) →
      (chunkGroups sentences breaks start).flatten = sentences.drop start := by
  intro breaks
  induction breaks with
  | nil =>
    intro start _ _
    by_cases hlt : start < sentences.length
    · simp [chunkGroups, hlt]
    · have : sentences.drop start = [] :=
        List.drop_eq_nil_of_le (Nat.le_of_not_lt hlt)
      simp [chunkGroups, hlt, this]
  | cons i rest ih =>
    intro start hpair hbound
    have hpair' : rest.Pairwise (· ≤ ·) := (List.pairwise_cons.mp hpair).2
    have hrel : ∀ j ∈ rest, i ≤ j := (List.pairwise_cons.mp hpair).1
    have hbound' : ∀ j ∈ rest, i + 1 ≤ j + 1 := fun j hj =>
      Nat.succ_le_succ (hrel j hj)
    have hstart : start ≤ i + 1 := hbound i (by simp)
    have hdrop : sentences.drop (i + 1)
        = (sentences.drop start).drop (i + 1 - start) := by
      rw [List.drop_drop, Nat.add_sub_cancel' hstart]
    calc (chunkGroups sentences (i :: rest) start).flatten
        = (sentences.drop start).take (i + 1 - start)
            ++ (chunkGroups sentences rest (i + 1)).flatten := by
          simp [chunkGroups]
      _ = (sentences.drop start).take (i + 1 - start) ++ sentences.drop (i + 1) := by
          rw [ih (i + 1) hpair' hbound']
      _ = (sentences.drop start).take (i + 1 - start)
            ++ (sentences.drop start).drop (i + 1 - start) := by rw [hdrop]
      _ = sentences.drop start := List.take_append_drop _ _

theorem chunkGroups_members_ne_nil (sentences : List String) :
    ∀ (breaks : List Nat) (start : Nat), breaks.Pairwise (· < ·) →
      (∀ i ∈ breaks, i < sentences.length) →
      (∀ i ∈ breaks, start ≤ i) →
      ∀ g ∈ chunkGroups sentences breaks start, g ≠ [] := by
  intro breaks
  induction breaks with
  | nil =>
    intro start _ _ _ g hg
    by_cases hlt : start < sentences.length
    · simp only [chunkGroups, if_pos hlt, List.mem_singleton] at hg
      subst hg
      intro hnil
      have := List.drop_eq_nil_iff.mp hnil
      exact Nat.not_lt.mpr this hlt
    · simp [chunkGroups, hlt] at hg
  | cons i rest ih =>
    intro start hpair hlen hlow g hg
    have hpair' : rest.Pairwise (· < ·) := (List.pairwise_cons.mp hpair).2
    have hrel : ∀ j ∈ rest, i < j := (List.pairwise_cons.mp hpair).1
    have hlen' : ∀ j ∈ rest, j < sentences.length := fun j hj => hlen j (by simp [hj])
    have hlow' : ∀ j ∈ rest, i + 1 ≤ j := fun j hj => hrel j hj
    have hstart : start ≤ i := hlow i (by simp)
    have hilen : i < sentences.length := hlen i (by simp)
    simp only [chunkGroups, List.mem_cons] at hg
    rcases hg with hg | hg
    · subst hg
      intro hnil
      have hlenz := congrArg List.length hnil
      simp only [List.length_take, List.length_drop, List.length_nil] at hlenz
      have h1 : 0 < i + 1 - start := Nat.sub_pos_of_lt (Nat.lt_succ_of_le hstart)
      have h2 : 0 < sentences.length - start :=
        Nat.sub_pos_of_lt (Nat.lt_of_le_of_lt hstart hilen)
      rcases Nat.min_eq_zero_iff.mp hlenz with h | h
      · exact Nat.lt_irrefl 0 (h ▸ h1)
      · exact Nat.lt_irrefl 0 (h ▸ h2)
    · exact ih (i + 1) hpair' hlen' hlow' g hg

theorem indicesAboveThresh_pairwise (distances : List Int) (thr : Int) :
    (indicesAboveThresh distances thr).Pairwise (· < ·) :=
  List.Pairwise.sublist (List.filter_sublist _) (List.pairwise_lt_range _)

theorem indicesAboveThresh_bound (distances : List Int) (thr : Int) :
    ∀ i ∈ indicesAboveThresh distances thr, i < distances.length := by
  intro i hi
  have := List.mem_of_mem_filter hi
  exact List.mem_range.mp this

theorem sentenceDistances_length_lt (embDist : String → String → Int)
    (sentences : List String) (h : sentences ≠ []) :
    (sentenceDistances embDist sentences).length < sentences.length := by
  cases sentences with
  | nil => exact absurd rfl h
  | cons a as =>
    simp only [sentenceDistances, List.length_zipWith, List.tail_cons, List.length_cons]
    omega

/-- Splitting a nonempty document yields at least one chunk. -/
theorem split_text_ne_nil (embDist : String → String → Int) (thr : Int)
    (sentences : List String) (h : sentences ≠ []) :
    split_text embDist thr sentences ≠ [] := by
  unfold split_text
  by_cases h1 : sentences.length = 1
  · simp [h1, h]
  · simp only [h1, if_false]
    cases hb : indicesAboveThresh (sentenceDistances embDist sentences) thr with
    | nil =>
      have hlen : 0 < sentences.length := List.length_pos.mpr h
      simp [chunkGroups, hlen]
    | cons i rest => simp [chunkGroups]

/-- Joining the chunks of a document with single spaces reproduces the
document's whitespace-normalized text (its sentences joined with single
spaces). -/
theorem split_text_reconstructs (embDist : String → String → Int) (thr : Int)
    (sentences : List String) (h : sentences ≠ []) :
    pyJoin " " (split_text embDist thr sentences) = pyJoin " " sentences := by
  unfold split_text
  by_cases h1 : sentences.length = 1
  · simp [h1]
  · simp only [h1, if_false]
    set breaks := indicesAboveThresh (sentenceDistances embDist sentences) thr with hb
    have hpairlt : breaks.Pairwise (· < ·) := indicesAboveThresh_pairwise _ _
    have hpairle : breaks.Pairwise (· ≤ ·) :=
      hpairlt.imp (fun hab => Nat.le_of_lt hab)
    have hlen : ∀ i ∈ breaks, i < sentences.length := fun i hi =>
      Nat.lt_trans (indicesAboveThresh_bound _ _ i hi)
        (sentenceDistances_length_lt embDist sentences h)
    have hlow : ∀ i ∈ breaks, (0 : Nat) ≤ i := fun i _ => Nat.zero_le i
    have hbound : ∀ i ∈ breaks, (0 : Nat) ≤ i + 1 := fun i _ => Nat.zero_le _
    have hmembers : ∀ g ∈ chunkGroups sentences breaks 0, g ≠ [] :=
      chunkGroups_members_ne_nil sentences breaks 0 hpairlt hlen hlow
    rw [pyJoin_map_join " " _ hmembers,
        chunkGroups_join sentences breaks 0 hpairle hbound]
    simp

/-- Every chunk produced by `split_documents` carries the `source` of the
document it came from, and its text is one of that document's chunks. -/
theorem split_documents_source (embDist : String → String → Int) (thr : Int)
    (docs : List SentDocument) (c : Document) (hc : c ∈ split_documents embDist thr docs) :
    ∃ p ∈ docs, c.source = p.source ∧
      c.page_content ∈ split_text embDist thr p.sentences := by
  simp only [split_documents, List.mem_flatMap, List.mem_map] at hc
  rcases hc with ⟨p, hp, t, ht, hct⟩
  exact ⟨p, hp, by rw [← hct], by rw [← hct]; exact ht⟩

/-! ## Index lifecycle: the management script (src/vector_db_management.py)
and the Streamlit build path (src/rag_app_3/vector_store.py). -/

/-- Observable steps of a build, in execution order: loading documents from the
source, constructing a fresh `HuggingFaceEmbeddings` model, splitting into
chunks, building the FAISS index from the chunks, and saving it to disk. -/
inductive TraceEvent
  | loadDocs
  | constructModel
  | splitChunks
  | faissBuild
  | saveLocal
deriving DecidableEq, Repr

/-- Model of `create_vector_db(documents, db_name)` (src/vector_db_management.py lines
70-81): constructs a fresh `HuggingFaceEmbeddings` instance, splits the
documents with a `SemanticChunker` built over it, builds a FAISS index from
the chunks and saves it under `db_name`. `faissRaises` models
`FAISS.from_documents` raising (e.g. documents that cannot be indexed); the
exception propagates to the caller and nothing is saved. Returns the resulting
disk, the outcome, and the trace of performed steps. -/
def create_vector_db (documents : List SentDocument) (db_name : String)
    (embDist : String → String → Int) (thr : Int) (emb : Embedder)
    (faissRaises : Bool) (disk : Disk) :
    Disk × Except String Unit × List TraceEvent :=
  if faissRaises then
    (disk, .error "FAISS.from_documents raised",
      [.constructModel, .splitChunks])
  else
    let chunks := split_documents embDist thr documents
    let idx := FAISS_from_documents emb chunks
    (save_local disk db_name idx, .ok (),
      [.constructModel, .splitChunks, .faissBuild, .saveLocal])

/-- Model of `resync_vector_db(db_name)` (src/vector_db_management.py lines 83-95): if
no database of that name exists, log an error and return; otherwise load the
new documents interactively (`load_documents` re-prompts until at least one
document is found, so `documents` is the non-empty corpus it eventually
returns), **delete the existing database directory** (`shutil.rmtree`), and
only then call `create_vector_db`. -/
def resync_vector_db (documents : List SentDocument) (db_name : String)
    (embDist : String → String → Int) (thr : Int) (emb : Embedder)
    (faissRaises : Bool) (disk : Disk) :
    Disk × Except String Unit × List TraceEvent :=
  if (disk.lookup db_name).isNone then
    (disk, .ok (), [])
  else
    let disk1 := eraseKey db_name disk
    create_vector_db documents db_name embDist thr emb faissRaises disk1

/-- A run of the management script's menu loop performing one
`create_vector_db` per request (option 1 of `main`): threads the disk through
and concatenates the step traces. -/
def runCreates (emb : Embedder) (embDist : String → String → Int) (thr : Int) :
    List (List SentDocument × String) → Disk → Disk × List TraceEvent
  | [], disk => (disk, [])
  | (documents, db_name) :: rest, disk =>
      let r := create_vector_db documents db_name embDist thr emb false disk
      let r2 := runCreates emb embDist thr rest r.1
      (r2.1, r.2.2 ++ r2.2)

/-- Errors with which `VectorStore._create_index` stops
(`st.error` followed by `st.stop`, or a propagated exception). -/
inductive CreateIndexError
  | noFolderSelected
  | folderMissing
  | emptySource
deriving DecidableEq, Repr

/-- Model of `VectorStore._create_index`, local-files path (src/rag_app_3/vector_store.py
lines 51-89): stop if no folder is selected or the context folder does not
exist; load the documents (`loader` models `DirectoryLoader(...).load()`); if
fewer than one document was found, stop with the no-documents error; otherwise
split into chunks, build the FAISS index over the passed embedding model, and
save it under `selected_folder + "-index"`. Returns the resulting index root,
the outcome, and the trace of performed steps. -/
def _create_index (selected_folder : Option String) (contextFolders : List String)
    (loader : String → List SentDocument) (embDist : String → String → Int)
    (thr : Int) (emb : Embedder) (disk : Disk) :
    Disk × Except CreateIndexError FAISSIndex × List TraceEvent :=
  match selected_folder with
  | none => (disk, .error .noFolderSelected, [])
  | some folder =>
    if folder ∈ contextFolders then
      let documents := loader folder
      if documents.length < 1 then
        (disk, .error .emptySource, [.loadDocs])
      else
        let docs := split_documents embDist thr documents
        let idx := FAISS_from_documents emb docs
        (save_local disk (folder ++ "-index") idx, .ok idx,
          [.loadDocs, .splitChunks, .faissBuild, .saveLocal])
    else (disk, .error .folderMissing, [])

/-- Outcome of one iteration of the local-source loop in `load_documents`
(src/vector_db_management.py lines 45-56). -/
inductive LoadStep
  | retry (warning : String)
  | done (documents : List SentDocument)
deriving DecidableEq, Repr

/-- One iteration of the local-source loop of `load_documents`: if the entered
folder exists, load its PDFs; break out of the loop with the documents when at
least one was found, otherwise log a warning and re-prompt; a missing folder
also warns and re-prompts. The loop never returns an empty corpus. -/
def load_documents_local_step (contextFolders : List String) (folder_name : String)
    (loader : String → List SentDocument) : LoadStep :=
  if folder_name ∈ contextFolders then
    let documents := loader folder_name
    if 1 ≤ documents.length then .done documents
    else .retry "No PDF documents found in directory"
  else .retry "Unable to find folder"

/-! ## The chat turn (rag_chat_app_ce.py, chat_app_fre.py, chat_app_nle.py) -/

/-- One entry of the `st.session_state.*_messages` conversation history. -/
structure Msg where
  role : String
  content : String
deriving DecidableEq, Repr

/-- The value returned by invoking the retrieval chain: the generated answer
and the list of retrieved context documents. -/
structure RagResponse where
  answer : String
  context : List Document
deriving DecidableEq, Repr

/-- The citation suffix appended to a RAG answer:
`context_list = list(set(context.metadata['source'] for context in response['context']))`
followed by `", ".join(context_list)`. Python's `set` keeps each distinct
element exactly once with unspecified order; `List.dedup` models that. -/
def sourceSuffix (context : List Document) : String :=
  "\n\n📌 Source: " ++ pyJoin ", " (context.map Document.source).dedup

/-- Model of `RAGChatAppCE.handle_user_input` (src/rag_app_3/rag_chat_app_ce.py lines
145-166): on a submitted prompt, append the user message to the history; with
the vector DB enabled, invoke the chain (`invokeResult`), build the answer with
the citation suffix and append it as the assistant message; without it, stream
the chain (`streamResult`) and append the streamed text. If the call raises,
`st.info` shows the error and `st.stop` aborts the handler before any
assistant message is appended. Returns the new history and the error message
shown, if any. -/
def handle_user_input_ce (use_vector_db : Bool) (messages : List Msg)
    (prompt : Option String) (invokeResult : Except String RagResponse)
    (streamResult : Except String String) : List Msg × Option String :=
  match prompt with
  | none => (messages, none)
  | some p =>
    let m1 := messages ++ [⟨"user", p⟩]
    if use_vector_db then
      match invokeResult with
      | .error e =>
          (m1, some ("An error occurred: " ++ e ++
            ". Please check your API key or try again."))
      | .ok resp =>
          let answer := resp.answer ++ sourceSuffix resp.context
          (m1 ++ [⟨"assistant", answer⟩], none)
    else
      match streamResult with
      | .error e =>
          (m1, some ("An error occurred: " ++ e ++
            ". Please check your API key or try again."))
      | .ok r => (m1 ++ [⟨"assistant", r⟩], none)

/-- Model of `ChatAppNLE.handle_user_input` (src/rag_app_3/chat_app_nle.py lines
131-151): append the user message, stream the chain, and append the streamed
response; on an exception, show the error and stop before appending any
assistant message. -/
def handle_user_input_nle (messages : List Msg) (prompt : Option String)
    (streamResult : Except String String) : List Msg × Option String :=
  match prompt with
  | none => (messages, none)
  | some p =>
    let m1 := messages ++ [⟨"user", p⟩]
    match streamResult with
    | .error e =>
        (m1, some ("An error occurred: " ++ e ++
          ". Please check your API key or try again later."))
    | .ok r => (m1 ++ [⟨"assistant", r⟩], none)

/-! ## AWS configuration resolution -/

/-- A raised Python exception relevant here. -/
inductive PyError
  | keyError (key : String)
deriving DecidableEq, Repr

/-- Python dict subscription `d[k]`: the value when the key is present,
otherwise a raised `KeyError`. -/
def dictGetItem (d : List (String × String)) (k : String) :
    Except PyError String :=
  match d.lookup k with
  | some v => .ok v
  | none => .error (.keyError k)

/-- Model of `get_aws_config` (src/vector_db_management.py lines 25-41): starts with
`aws_config = ` the empty dict and immediately evaluates the first loop
condition `not aws_config['region_name']`. Subscripting the empty dict raises
`KeyError('region_name')` before any environment variable is read or any
prompt shown, so the loop bodies (env-then-prompt resolution for the region,
access key and secret key) are unreachable; `env` and `promptAnswer` are
therefore never consulted. -/
def get_aws_config (env : String → String) (promptAnswer : String → String) :
    Except PyError (List (String × String)) :=
  match dictGetItem [] "region_name" with
  | .error e => .error e
  | .ok v =>
      -- Unreachable: `dictGetItem [] k` always raises (see
      -- `dictGetItem_empty` below). Kept only to complete the match.
      .ok [("region_name", v), ("aws_access_key_id", env "AWS_ACCESS_KEY"),
           ("aws_secret_access_key", promptAnswer "aws_secret_access_key")]

theorem dictGetItem_empty (k : String) :
    dictGetItem [] k = .error (.keyError k) := rfl

/-- Python's `a or b` on strings: `b` when `a` is empty (falsy), else `a`.
`os.getenv` of an unset variable is modelled as the empty string, which `or`
treats the same as `None`. -/
def pyOr (a b : String) : String := if a = "" then b else a

/-- One entry of `VectorStore._get_aws_config`'s loop (src/rag_app_3/
vector_store.py lines 91-107): `value = os.getenv(env_var) or
st.sidebar.text_input(...)`; a blank value shows `Invalid <display name>` and
calls `st.stop()`, modelled as `.error`. -/
def resolveAwsValue (env textInput : String → String)
    (key env_var display_name : String) : Except String String :=
  let value := pyOr (env env_var) (textInput key)
  if value = "" then .error ("Invalid " ++ display_name) else .ok value

/-- Model of `VectorStore._get_aws_config`: resolve region, access key and secret key in
order, each from its environment variable first with the sidebar text input as
fallback, stopping fatally at the first value that is absent after both. -/
def st_get_aws_config (env textInput : String → String) :
    Except String (List (String × String)) :=
  match resolveAwsValue env textInput "region_name" "AWS_REGION_NAME"
      "AWS Region Name" with
  | .error e => .error e
  | .ok region =>
    match resolveAwsValue env textInput "aws_access_key_id" "AWS_ACCESS_KEY"
        "AWS Access Key" with
    | .error e => .error e
    | .ok access =>
      match resolveAwsValue env textInput "aws_secret_access_key"
          "AWS_SECRET_ACCESS_KEY" "AWS Secret Access Key" with
      | .error e => .error e
      | .ok secret =>
          .ok [("region_name", region), ("aws_access_key_id", access),
               ("aws_secret_access_key", secret)]

/-! ## `VectorStore.reset_index` -/

/-- The in-memory state relevant to `reset_index`: the session's selected
vector-DB name, the loaded FAISS handle, and the on-disk index root. -/
structure VSState where
  selected_vector : Option String
  vector_store : Option FAISSIndex
  disk : Disk

/-- How a `reset_index` call ended. -/
inductive ResetOutcome
  | reset (name : String)
  | stoppedNoSelection
  | warnedNoDb
deriving DecidableEq, Repr

/-- Python's `a or b` where `a` is an optional value. -/
def pyOrOpt (a b : Option String) : Option String :=
  match a with
  | some v => some v
  | none => b

/-- Model of `VectorStore.reset_index` (src/rag_app_3/vector_store.py lines 114-128):
if index directories exist, take the session's selected name (or the reset
selectbox choice); with no selection, warn and stop; otherwise `rmtree` the
directory, set `st.session_state.selected_vector = None` and
`self.vector_store = None`, and rerun. With no directories, warn only. -/
def reset_index (s : VSState) (selectboxChoice : Option String) :
    VSState × ResetOutcome :=
  if (s.disk.map Prod.fst).isEmpty then
    (s, .warnedNoDb)
  else
    match pyOrOpt s.selected_vector selectboxChoice with
    | none => (s, .stoppedNoSelection)
    | some sel =>
        ({ selected_vector := none, vector_store := none,
           disk := eraseKey sel s.disk }, .reset sel)

/-! ## Supporting lemmas about the index root -/

theorem lookup_eraseKey (name : String) (disk : Disk) :
    (eraseKey name disk).lookup name = none := by
  unfold eraseKey
  induction disk with
  | nil => rfl
  | cons p rest ih =>
    rcases p with ⟨k, v⟩
    by_cases hp : k = name
    · rw [List.filter_cons_of_neg (by simp [hp])]
      exact ih
    · rw [List.filter_cons_of_pos (by simp [hp])]
      have hb2 : (name == k) = false := by simp [Ne.symm hp]
      simp only [List.lookup, hb2]
      exact ih

theorem lookup_save_local (disk : Disk) (name : String) (idx : FAISSIndex) :
    (save_local disk name idx).lookup name = some idx := by
  simp [save_local, List.lookup]

/-- Characterization of `st_get_aws_config` when every environment variable is
set: the environment wins over the sidebar input (supporting lemma showing the
intended env-then-prompt resolution that `get_aws_config` fails to reach). -/
theorem st_get_aws_config_env_first (env textInput : String → String)
    (h1 : env "AWS_REGION_NAME" ≠ "") (h2 : env "AWS_ACCESS_KEY" ≠ "")
    (h3 : env "AWS_SECRET_ACCESS_KEY" ≠ "") :
    st_get_aws_config env textInput
      = .ok [("region_name", env "AWS_REGION_NAME"),
             ("aws_access_key_id", env "AWS_ACCESS_KEY"),
             ("aws_secret_access_key", env "AWS_SECRET_ACCESS_KEY")] := by
  simp [st_get_aws_config, resolveAwsValue, pyOr, h1, h2, h3]

/-- Supporting lemma: in `st_get_aws_config` a value absent from both the
environment and the sidebar input is a fatal stop. -/
theorem st_get_aws_config_absent_fatal (env textInput : String → String)
    (h1 : env "AWS_REGION_NAME" = "") (h2 : textInput "region_name" = "") :
    st_get_aws_config env textInput = .error "Invalid AWS Region Name" := by
  simp [st_get_aws_config, resolveAwsValue, pyOr, h1, h2]

/-! ## The claims -/

/-- C1 (counterexample): `resync_vector_db` on an existing index
`"docs-index"` whose rebuild step fails leaves the previously persisted index
gone from disk — it is no longer loadable, refuting the claim that resync
never leaves the index unqueryable part-way. -/
theorem c1_counterexample :
    load_vector_store
      (resync_vector_db [⟨["s1"], "doc.pdf"⟩] "docs-index" (fun _ _ => 0) 0
        (fun _ => []) true [("docs-index", ⟨[([1], ⟨"text", "doc.pdf"⟩)]⟩)]).1
      (fun _ => []) (some "docs-index") = none := by
  rfl

/-- C1 (amended): resync of an existing named index is destructive: it deletes
the persisted index before rebuilding, so a failing rebuild leaves no index of
that name on disk, while a successful rebuild replaces it with the new index. -/
theorem c1_resync_destructive (documents : List SentDocument) (db_name : String)
    (embDist : String → String → Int) (thr : Int) (emb : Embedder) (disk : Disk)
    (h : (disk.lookup db_name).isSome) :
    (resync_vector_db documents db_name embDist thr emb true disk).1.lookup db_name
      = none
    ∧ (resync_vector_db documents db_name embDist thr emb true disk).2.1
      = .error "FAISS.from_documents raised"
    ∧ (resync_vector_db documents db_name embDist thr emb false disk).1.lookup db_name
      = some (FAISS_from_documents emb (split_documents embDist thr documents)) := by
  have h2 : (disk.lookup db_name).isNone = false := by
    cases hl : disk.lookup db_name with
    | none => rw [hl] at h; simp at h
    | some v => simp
  refine ⟨?_, ?_, ?_⟩ <;>
    simp [resync_vector_db, h2, create_vector_db, lookup_eraseKey, lookup_save_local]

theorem c1_witness :
    (([("docs-index", (⟨[]⟩ : FAISSIndex))] : Disk).lookup "docs-index").isSome = true
    ∧ (resync_vector_db [] "docs-index" (fun _ _ => 0) 0 (fun _ => []) true
        [("docs-index", ⟨[]⟩)]).1.lookup "docs-index" = none :=
  ⟨rfl, (c1_resync_destructive [] "docs-index" (fun _ _ => 0) 0 (fun _ => [])
    [("docs-index", ⟨[]⟩)] rfl).1⟩

/-- C2: an index built from any chunks, saved under a name in the index root
and loaded back from that name with the same embedder answers every query with
exactly the same ordered top-k results and scores as the pre-save index. -/
theorem c2_save_load_roundtrip (disk : Disk) (emb : Embedder) (chunks : List Document)
    (name q : String) (k : Nat) :
    (load_vector_store (save_local disk name (FAISS_from_documents emb chunks)) emb
        (some name)).map (fun ix => similarity_search_with_score ix emb q k)
      = some (similarity_search_with_score (FAISS_from_documents emb chunks) emb q k) := by
  simp [load_vector_store, lookup_save_local]

/-- C3: when the selected context folder exists but yields zero documents,
`_create_index` stops with the empty-source error after the document-loading
step and before any chunking, embedding or saving, leaving the index root
unchanged; and one iteration of the management script's `load_documents` loop
on the same empty folder re-prompts instead of proceeding. -/
theorem c3_empty_source (folder : String) (contextFolders : List String)
    (loader : String → List SentDocument) (embDist : String → String → Int)
    (thr : Int) (emb : Embedder) (disk : Disk)
    (hmem : folder ∈ contextFolders) (hempty : loader folder = []) :
    (_create_index (some folder) contextFolders loader embDist thr emb disk).1 = disk
    ∧ (_create_index (some folder) contextFolders loader embDist thr emb disk).2.1
      = .error .emptySource
    ∧ TraceEvent.splitChunks
        ∉ (_create_index (some folder) contextFolders loader embDist thr emb disk).2.2
    ∧ TraceEvent.faissBuild
        ∉ (_create_index (some folder) contextFolders loader embDist thr emb disk).2.2
    ∧ TraceEvent.saveLocal
        ∉ (_create_index (some folder) contextFolders loader embDist thr emb disk).2.2
    ∧ load_documents_local_step contextFolders folder loader
      = .retry "No PDF documents found in directory" := by
  refine ⟨?_, ?_, ?_, ?_, ?_, ?_⟩ <;>
    simp [_create_index, load_documents_local_step, hmem, hempty]

theorem c3_witness :
    ("docs" ∈ ["docs"])
    ∧ (_create_index (some "docs") ["docs"] (fun _ => []) (fun _ _ => 0) 0
        (fun _ => []) []).1 = ([] : Disk)
    ∧ (_create_index (some "docs") ["docs"] (fun _ => []) (fun _ _ => 0) 0
        (fun _ => []) []).2.1 = .error .emptySource := by
  have h := c3_empty_source "docs" ["docs"] (fun _ => []) (fun _ _ => 0) 0
    (fun _ => []) [] (by simp) rfl
  exact ⟨by simp, h.1, h.2.1⟩

/-- C4 (counterexample): with no index loaded, `get_retriever` returns `None`
rather than signalling an error, and `setup_chain` with Use-Vector-DB enabled
and no retriever builds the plain non-RAG chain while emitting no user-visible
message — the degraded mode is a silent fallback, refuting the claim. -/
theorem c4_counterexample :
    get_retriever none = none
    ∧ setup_chain_ce true (get_retriever none) = (Chain.simpleChain, []) :=
  ⟨rfl, rfl⟩

/-- C4 (amended): requesting a retriever when no index is loaded returns
`None` (neither an error nor a retriever), and chain setup with an absent
retriever falls back to the plain non-RAG chain with no user-visible
degraded-mode message, whether or not Use-Vector-DB is enabled. -/
theorem c4_silent_fallback (use_vector_db : Bool) :
    get_retriever none = none
    ∧ setup_chain_ce use_vector_db none = (Chain.simpleChain, []) := by
  cases use_vector_db <;> exact ⟨rfl, rfl⟩

/-- C5: for every document with at least one sentence, the semantic chunker
yields at least one chunk, joining the chunks with single spaces reproduces
the document's whitespace-normalized text (its sentences joined with single
spaces), and every chunk produced by `split_documents` carries its parent
document's source identifier. -/
theorem c5_chunker (embDist : String → String → Int) (thr : Int) (d : SentDocument)
    (h : d.sentences ≠ []) :
    split_text embDist thr d.sentences ≠ []
    ∧ pyJoin " " (split_text embDist thr d.sentences) = pyJoin " " d.sentences
    ∧ ∀ docs c, c ∈ split_documents embDist thr docs →
        ∃ p ∈ docs, c.source = p.source
          ∧ c.page_content ∈ split_text embDist thr p.sentences :=
  ⟨split_text_ne_nil embDist thr d.sentences h,
   split_text_reconstructs embDist thr d.sentences h,
   fun docs c hc => split_documents_source embDist thr docs c hc⟩

theorem c5_witness :
    ((⟨["a", "b"], "s.pdf"⟩ : SentDocument).sentences ≠ [])
    ∧ split_text (fun _ _ => 0) 0 (⟨["a", "b"], "s.pdf"⟩ : SentDocument).sentences ≠ []
    ∧ pyJoin " " (split_text (fun _ _ => 0) 0
        (⟨["a", "b"], "s.pdf"⟩ : SentDocument).sentences)
      = pyJoin " " (⟨["a", "b"], "s.pdf"⟩ : SentDocument).sentences := by
  have h := c5_chunker (fun _ _ => 0) 0 ⟨["a", "b"], "s.pdf"⟩ (by simp)
  exact ⟨by simp, h.1, h.2.1⟩

/-- C6: the management script's `get_aws_config` raises
`KeyError('region_name')` on every call — even with every AWS environment
variable set — because it subscripts the just-created empty dict in its first
loop condition; it never reaches the intended env-then-prompt resolution. The
sibling `st_get_aws_config` shows the intended behavior (see
`st_get_aws_config_env_first` and `st_get_aws_config_absent_fatal`). -/
theorem c6_get_aws_config_keyerror (env promptAnswer : String → String) :
    get_aws_config env promptAnswer = .error (.keyError "region_name") := rfl

/-- C7 (counterexample): a management-script run performing two index builds
constructs two embedding-model instances, refuting the claim that a single
embedding-model instance is constructed at most once per process. -/
theorem c7_counterexample :
    ¬ ((runCreates (fun _ => []) (fun _ _ => 0) 0
          [([], "db-a"), ([], "db-b")] []).2.count TraceEvent.constructModel ≤ 1) := by
  decide

/-- C7 (amended): every call to `create_vector_db` constructs exactly one
fresh `HuggingFaceEmbeddings` instance of its own; the management script keeps
no process-wide embedding-model singleton. -/
theorem c7_fresh_model_per_call (documents : List SentDocument) (db_name : String)
    (embDist : String → String → Int) (thr : Int) (emb : Embedder)
    (faissRaises : Bool) (disk : Disk) :
    (create_vector_db documents db_name embDist thr emb faissRaises disk).2.2.count
      TraceEvent.constructModel = 1 := by
  cases faissRaises <;> rfl

/-- C8: if the provider call raises during a chat turn (both the CE app's
invoke/stream call and the NLE app's stream call), the error is shown to the
user as a message and the conversation history is exactly the history recorded
before the call (the prior messages plus the just-appended user message); no
assistant message is appended and nothing is lost, so resubmitting retries. -/
theorem c8_provider_error_preserves_history (use_vector_db : Bool)
    (messages : List Msg) (p e : String) :
    handle_user_input_ce use_vector_db messages (some p) (.error e) (.error e)
      = (messages ++ [⟨"user", p⟩],
         some ("An error occurred: " ++ e ++ ". Please check your API key or try again."))
    ∧ handle_user_input_nle messages (some p) (.error e)
      = (messages ++ [⟨"user", p⟩],
         some ("An error occurred: " ++ e
           ++ ". Please check your API key or try again later.")) := by
  cases use_vector_db <;> exact ⟨rfl, rfl⟩

/-- C9: on a successful retrieval-augmented turn, the assistant message
recorded in history is the provider's answer followed by the citation suffix
joining the retrieved chunks' deduplicated source identifiers with commas, and
that deduplicated list has no duplicates, contains exactly the retrieved
sources, and lists each retrieved source exactly once. -/
theorem c9_citation_suffix (messages : List Msg) (p : String) (resp : RagResponse)
    (streamResult : Except String String) :
    handle_user_input_ce true messages (some p) (.ok resp) streamResult
      = (messages ++ [⟨"user", p⟩,
          ⟨"assistant", resp.answer ++ "\n\n📌 Source: "
            ++ pyJoin ", " (resp.context.map Document.source).dedup⟩], none)
    ∧ (resp.context.map Document.source).dedup.Nodup
    ∧ (∀ s, s ∈ (resp.context.map Document.source).dedup
          ↔ s ∈ resp.context.map Document.source)
    ∧ ∀ s ∈ resp.context.map Document.source,
        (resp.context.map Document.source).dedup.count s = 1 := by
  refine ⟨?_, List.nodup_dedup _, fun s => List.mem_dedup, fun s hs =>
    List.count_eq_one_of_mem (List.nodup_dedup _) (List.mem_dedup.mpr hs)⟩
  simp [handle_user_input_ce, sourceSuffix, String.append_assoc]

theorem c9_witness :
    ((List.map Document.source [(⟨"t1", "s1"⟩ : Document), ⟨"t2", "s1"⟩]).dedup).count
      "s1" = 1 := by
  have h := (c9_citation_suffix [] "q" ⟨"ans", [⟨"t1", "s1"⟩, ⟨"t2", "s1"⟩]⟩
    (.ok "")).2.2.2
  exact h "s1" (by simp)

/-- C10: whenever `reset_index` actually resets (deletes) the selected index,
the resulting state has the selected-index name and the in-memory vector-store
handle both cleared to `None`, a subsequent `get_retriever` returns `None`,
and the deleted index is gone from the index root, so no query can be served
from it. -/
theorem c10_reset_clears_state (s : VSState) (choice : Option String) (name : String)
    (h : (reset_index s choice).2 = .reset name) :
    (reset_index s choice).1.selected_vector = none
    ∧ (reset_index s choice).1.vector_store = none
    ∧ get_retriever (reset_index s choice).1.vector_store = none
    ∧ (reset_index s choice).1.disk.lookup name = none := by
  unfold reset_index at h ⊢
  by_cases he : (s.disk.map Prod.fst).isEmpty = true
  · rw [if_pos he] at h
    simp at h
  · rw [if_neg he] at h ⊢
    cases hsel : pyOrOpt s.selected_vector choice with
    | none =>
      rw [hsel] at h
      simp at h
    | some sel =>
      rw [hsel] at h
      have hname : sel = name := by simpa using h
      subst hname
      exact ⟨rfl, rfl, rfl, lookup_eraseKey sel s.disk⟩

theorem c10_witness :
    ((reset_index ⟨some "db1", some ⟨[]⟩, [("db1", ⟨[]⟩)]⟩ none).2
        = ResetOutcome.reset "db1")
    ∧ (reset_index ⟨some "db1", some ⟨[]⟩, [("db1", ⟨[]⟩)]⟩ none).1.selected_vector
        = none
    ∧ (reset_index ⟨some "db1", some ⟨[]⟩, [("db1", ⟨[]⟩)]⟩ none).1.vector_store
        = none := by
  have h := c10_reset_clears_state ⟨some "db1", some ⟨[]⟩, [("db1", ⟨[]⟩)]⟩ none
    "db1" rfl
  exact ⟨rfl, h.1, h.2.1⟩

end RagBot
